import Mathlib

/-!
Verification development for the Gideon voice-assistant pipeline
(`src/core/audio_manager_optimized.py`, `src/core/assistant_core.py`).
Each Python function relevant to the specification is shallowly embedded
as an executable Lean definition; theorems then settle the specified
properties against those definitions.
-/

set_option maxRecDepth 10000

attribute [local semireducible] Rat.add Rat.sub Rat.mul Rat.inv

namespace WakeWord

/-- Length of the common run of equal characters at the head of the two
lists.  Used to measure candidate matching blocks, mirroring the block
extension performed by difflib. -/
def commonRun : List Char → List Char → Nat
  | a :: as, b :: bs => if a = b then commonRun as bs + 1 else 0
  | _, _ => 0

/-- Embedding of difflib SequenceMatcher find longest match for junk-free
inputs (no junk characters and no autojunk, which only engages for second
strings of length at least 200; every transcript considered here is
shorter): among all maximal matching blocks, pick the one with greatest
length, breaking ties by smallest start in the first string and then
smallest start in the second string.  Returns (i, j, k). -/
def bestMatch (a b : List Char) : Nat × Nat × Nat :=
  let cands := (List.range a.length).flatMap fun i =>
    (List.range b.length).map fun j => (i, j, commonRun (a.drop i) (b.drop j))
  cands.foldl (fun best c => if best.2.2 < c.2.2 then c else best) (0, 0, 0)

/-- Fuel-indexed embedding of difflib SequenceMatcher get matching blocks:
total number of matched characters, obtained by taking the best block and
recursing on the parts of both strings to its left and to its right.  Each
recursive call strictly decreases the combined length of the two lists, so
a fuel of (combined length + 1) always suffices. -/
def matchTotalFuel : Nat → List Char → List Char → Nat
  | 0, _, _ => 0
  | fuel + 1, a, b =>
    let m := bestMatch a b
    let i := m.1
    let j := m.2.1
    let k := m.2.2
    if k = 0 then 0
    else k + matchTotalFuel fuel (a.take i) (b.take j)
           + matchTotalFuel fuel (a.drop (i + k)) (b.drop (j + k))

/-- Total number of characters matched between the two strings by the
difflib matching-block decomposition. -/
def matchTotal (a b : List Char) : Nat :=
  matchTotalFuel (a.length + b.length + 1) a b

/-- Embedding of difflib SequenceMatcher ratio: twice the number of matched
characters divided by the total length of both strings (1 when both are
empty).  The Python code compares this double against the configured
threshold; the values arising here are exact small rationals. -/
def simRatio (a b : List Char) : ℚ :=
  if a.length + b.length = 0 then 1
  else mkRat (2 * matchTotal a b) (a.length + b.length)

/-- Check that the first list is an initial segment of the second. -/
def leadMatch : List Char → List Char → Bool
  | [], _ => true
  | _ :: _, [] => false
  | a :: as, b :: bs => a = b && leadMatch as bs

/-- Embedding of the Python substring test (needle in haystack). -/
def hasSub : List Char → List Char → Bool
  | n, [] => n.isEmpty
  | n, h :: t => leadMatch n (h :: t) || hasSub n t

/-- Embedding of Python str.strip: remove leading and trailing whitespace. -/
def stripEnds (l : List Char) : List Char :=
  ((l.dropWhile Char.isWhitespace).reverse.dropWhile Char.isWhitespace).reverse

/-- Embedding of text.lower().strip() as applied by the detector. -/
def normalize (l : List Char) : List Char :=
  stripEnds (l.map Char.toLower)

/-- Result of wake-word detection: the Python code returns a pair of a
boolean and a string; the string is empty on no match, the matched phrase
on an exact match, and the phrase annotated with its score on a fuzzy
match.  The annotation is modelled structurally instead of via string
formatting. -/
inductive WakeMatch where
  | noMatch : WakeMatch
  | exactHit (w : List Char) : WakeMatch
  | fuzzyHit (w : List Char) (r : ℚ) : WakeMatch
  deriving DecidableEq

/-- First configured phrase that occurs as a substring of the transcript
(the Python exact-search loop). -/
def findExact : List (List Char) → List Char → Option (List Char)
  | [], _ => none
  | w :: ws, t => if hasSub w t then some w else findExact ws t

/-- Embedding of the Python fuzzy loop over the phrases, carrying the best
(phrase, ratio) pair and updating it only when the ratio strictly exceeds
the best so far and is at least the threshold; the loop starts from the
empty phrase with ratio 0. -/
def bestFuzzy (threshold : ℚ) (t : List Char) :
    List (List Char) → List Char × ℚ → List Char × ℚ
  | [], best => best
  | w :: ws, best =>
    bestFuzzy threshold t ws
      (if best.2 < simRatio w t ∧ threshold ≤ simRatio w t
       then (w, simRatio w t) else best)

/-- Embedding of WakeWordDetector.detect_wake_word
(src/core/audio_manager_optimized.py lines 163-190): empty text never
matches; otherwise the text is lowercased and stripped, exact substring
containment is tried first, and only if that fails is the fuzzy
similarity computed per phrase, matching when the best kept phrase is
non-empty.  The configured phrases are assumed already lowercased and
stripped, as the detector constructor guarantees. -/
def detect_wake_word (words : List (List Char)) (threshold : ℚ)
    (text : List Char) : Bool × WakeMatch :=
  if text = [] then (false, .noMatch)
  else
    let t := normalize text
    match findExact words t with
    | some w => (true, .exactHit w)
    | none =>
      let bf := bestFuzzy threshold t words ([], 0)
      if bf.1 ≠ [] then (true, .fuzzyHit bf.1 bf.2) else (false, .noMatch)

lemma detect_single_fuzzy (g : List Char) (hg : g ≠ []) (θ : ℚ) (hθ : 0 < θ)
    (text : List Char) (hempty : text ≠ [])
    (hex : hasSub g (normalize text) = false) :
    (detect_wake_word [g] θ text).1 = true
      ↔ θ ≤ simRatio g (normalize text) := by
  unfold detect_wake_word
  rw [if_neg hempty]
  have hfe : findExact [g] (normalize text) = none := by
    unfold findExact
    rw [hex]
    simp [findExact]
  dsimp only
  rw [hfe]
  by_cases hcond : ((0:ℚ) < simRatio g (normalize text)
      ∧ θ ≤ simRatio g (normalize text))
  · simp [bestFuzzy, hcond, hg, hcond.2]
  · simp [bestFuzzy, hcond]
    rcases lt_or_le (simRatio g (normalize text)) θ with h | h
    · exact h
    · exact absurd ⟨lt_of_lt_of_le hθ h, h⟩ hcond

/-- The phrase list of the claim: the single word gideon. -/
def gideonWords : List (List Char) := ["gideon".toList]

/-- Transcript of the fuzzy-match example in the claim. -/
def fuzzyText : List Char := "hey gideo turn on lights".toList

/-- Transcript of the no-match example in the claim. -/
def unrelatedText : List Char := "completely unrelated text".toList

end WakeWord

namespace SpeakCtl

/-- Observable effects of one call to GideonCore.speak.  The constructor
skipReport is included to express the outcome the specification claims
for a busy non-priority call; the code itself has no code path producing
it. -/
inductive TtsAct where
  | stopCurrent : TtsAct
  | startPlayback (text : String) : TtsAct
  | skipReport : TtsAct
  deriving DecidableEq

/-- Embedding of GideonCore.speak (src/core/assistant_core.py lines
94-117, identical control flow in assistant_core_fixed.py lines 180-208):
when priority is set and the isSpeaking flag is up, the current TTS
utterance is stopped; in every case a new playback thread is then
started for the given text.  The spawned thread raises the isSpeaking
flag, plays the text, and lowers the flag again; the function returns the
sequence of effects it issues, in order. -/
def speak (isSpeaking : Bool) (text : String) (priority : Bool) :
    List TtsAct :=
  (if priority && isSpeaking then [TtsAct.stopCurrent] else [])
    ++ [TtsAct.startPlayback text]

end SpeakCtl

namespace CmdQueue

/-- Embedding of the VoiceCommand dataclass of src/core/assistant_core.py. -/
structure VoiceCommand where
  text : String
  confidence : ℚ
  timestamp : ℚ
  deriving DecidableEq

/-- Embedding of voice_queue.put: Python queue.Queue is an unbounded FIFO,
so put appends at the tail and never blocks the producer. -/
def put (q : List VoiceCommand) (c : VoiceCommand) : List VoiceCommand :=
  q ++ [c]

/-- Embedding of GideonCore.get_next_voice_command (src/core/
assistant_core.py lines 200-213): a get with a timeout returns the head
of the FIFO when one is present; when the timeout elapses on an empty
queue the queue.Empty exception is caught and None is returned. -/
def get_next_voice_command (q : List VoiceCommand) :
    Option VoiceCommand × List VoiceCommand :=
  match q with
  | [] => (none, [])
  | c :: rest => (some c, rest)

end CmdQueue

namespace AudioMgr

/-- Value stored in the stats dictionary of EnhancedAudioManager: the
Python dict holds numbers and one string (the initial last_calibration
entry). -/
inductive StatVal where
  | num (q : ℚ) : StatVal
  | txt (s : String) : StatVal
  deriving DecidableEq

/-- The string keys used to index the stats dictionary anywhere in
src/core/audio_manager_optimized.py, one constructor per distinct string
literal, named exactly after it. -/
inductive StatKey where
  | total_listens : StatKey
  | successful_recognitions : StatKey
  | failed_recognitions : StatKey
  | wake_words_detected : StatKey
  | last_calibration : StatKey
  | consecutive_failures : StatKey
  | avg_response_time : StatKey
  | failures : StatKey
  | calibrations : StatKey
  deriving DecidableEq

/-- The Python string literal a StatKey stands for. -/
def StatKey.name : StatKey → String
  | .total_listens => "total_listens"
  | .successful_recognitions => "successful_recognitions"
  | .failed_recognitions => "failed_recognitions"
  | .wake_words_detected => "wake_words_detected"
  | .last_calibration => "last_calibration"
  | .consecutive_failures => "consecutive_failures"
  | .avg_response_time => "avg_response_time"
  | .failures => "failures"
  | .calibrations => "calibrations"

/-- The stats dictionary, modelled as an insertion-ordered association
list, as a Python dict is. -/
abbrev Stats := List (StatKey × StatVal)

/-- Dictionary lookup; none models a KeyError being raised on read. -/
def statsFind (st : Stats) (k : StatKey) : Option StatVal :=
  (st.find? fun p => p.1 = k).map fun p => p.2

/-- Dictionary assignment: update the first entry with the key in place
when one exists, append a new entry otherwise (Python dicts preserve
insertion order, and these dictionaries never hold a key twice). -/
def statsSet : Stats → StatKey → StatVal → Stats
  | [], k, v => [(k, v)]
  | p :: t, k, v => if p.1 = k then (k, v) :: t else p :: statsSet t k v

/-- Embedding of the augmented assignment stats[k] += 1: reading a missing
key raises KeyError; adding 1 to the string entry would raise TypeError;
otherwise the numeric entry is incremented. -/
def statsIncr (st : Stats) (k : StatKey) : Except String Stats :=
  match statsFind st k with
  | none => .error ("KeyError: " ++ k.name)
  | some (.txt _) => .error ("TypeError: " ++ k.name)
  | some (.num q) => .ok (statsSet st k (.num (q + 1)))

/-- The stats dictionary exactly as written by EnhancedAudioManager.__init__
(src/core/audio_manager_optimized.py lines 305-312). -/
def initStats : Stats :=
  [(.total_listens, .num 0),
   (.successful_recognitions, .num 0),
   (.failed_recognitions, .num 0),
   (.wake_words_detected, .num 0),
   (.last_calibration, .txt "Never"),
   (.consecutive_failures, .num 0)]

/-- Attributes assigned on self by EnhancedAudioManager.__init__ (lines
289-318) together with the _initialize_components call it makes;
transcribed from the source. -/
def initAssignedAttrs : List String :=
  ["logger", "config", "recognizer", "microphone", "tts_engine",
   "french_voice_manager", "is_calibrated", "last_calibration",
   "consecutive_failures", "stats", "macos_optimizer"]

/-- Mutable state of an EnhancedAudioManager instance.  Attributes the
class may leave unassigned are carried as booleans or options recording
their presence; sleeps records the durations passed to time.sleep, in
call order. -/
structure AMState where
  hasRecognizer : Bool
  hasMicrophone : Bool
  hasWakeDetector : Bool
  isListeningAttr : Option Bool
  energyThreshold : ℚ
  lastCalibration : ℚ
  consecutiveFailures : Nat
  stats : Stats
  lastSuccessfulRecognition : Option ℚ
  sleeps : List ℚ
  deriving DecidableEq

/-- AudioConfig.MAX_RETRIES (line 60). -/
def maxRetries : Nat := 3

/-- AudioConfig.RETRY_DELAY (line 59). -/
def retryDelay : ℚ := 1

/-- AudioConfig.AUTO_CALIBRATE_INTERVAL (line 56). -/
def autoCalibrateInterval : ℚ := 60

/-- AudioConfig.LANGUAGE followed by AudioConfig.ALTERNATIVE_LANGUAGES
(lines 63-64), the order iterated by listen_once. -/
def configLangs : List String := ["fr-FR", "en-US", "en-GB"]

/-- Outcome of the ambient-noise sampling performed inside the microphone
context: either an exception (microphone context entry or
adjust_for_ambient_noise failing) or the sampled energy installed as the
raw threshold. -/
inductive CalibSample where
  | err : CalibSample
  | value (e : ℚ) : CalibSample
  deriving DecidableEq

/-- Threshold validation step of auto_calibrate_microphone (lines
392-397): a derived value below 100 is replaced by 200, one above 1000 by
800, anything else is kept. -/
def validateThreshold (e : ℚ) : ℚ :=
  if e < 100 then 200 else if e > 1000 then 800 else e

/-- Embedding of EnhancedAudioManager.auto_calibrate_microphone (lines
372-407).  Without recognizer or microphone it returns False at once.  An
exception during sampling is caught by the enclosing handler and False is
returned with nothing changed.  On a sampled value the threshold is set
and validated and last_calibration is updated; the following
stats[calibrations] increment raises KeyError when that key is missing,
which the handler also catches, returning False while keeping the
mutations already made. -/
def auto_calibrate (s : AMState) (sample : CalibSample) (now : ℚ) :
    AMState × Bool :=
  if !(s.hasRecognizer && s.hasMicrophone) then (s, false)
  else
    match sample with
    | .err => (s, false)
    | .value e =>
      match statsIncr s.stats .calibrations with
      | .error _ =>
        ({ s with energyThreshold := validateThreshold e,
                  lastCalibration := now }, false)
      | .ok st =>
        ({ s with energyThreshold := validateThreshold e,
                  lastCalibration := now, stats := st }, true)

/-- Embedding of _should_recalibrate (lines 409-419). -/
def shouldRecalibrate (s : AMState) (now : ℚ) : Bool :=
  (autoCalibrateInterval < now - s.lastCalibration)
    || (maxRetries ≤ s.consecutiveFailures)

/-- Result of one recognize_google call for one language. -/
inductive SttResult where
  | ok (t : String) : SttResult
  | unknownValue : SttResult
  | requestError : SttResult
  deriving DecidableEq

/-- Behaviour of the microphone capture in listen_once: silence until the
listen timeout (WaitTimeoutError), a service or unexpected error raised
by the capture itself, or captured audio whose per-language recognition
results are given by the function. -/
inductive Capture where
  | timeout : Capture
  | serviceError : Capture
  | otherError : Capture
  | audio (f : String → SttResult) : Capture

/-- External inputs of one listen_once call: the capture behaviour, the
ambient sample available to a recalibration, the current wall-clock time
and the elapsed recognition time. -/
structure Env where
  capture : Capture
  calibSample : CalibSample
  now : ℚ
  responseTime : ℚ

/-- Embedding of the per-language recognition loop of listen_once (lines
474-483): languages are tried in order, UnknownValueError and
RequestError are swallowed and the loop continues, and the first
successful result breaks the loop.  Returns the recognized text, if any, together
with the list of languages actually consulted. -/
def recognizeLangs (f : String → SttResult) :
    List String → Option String × List String
  | [] => (none, [])
  | l :: rest =>
    match f l with
    | .ok t => (some t, [l])
    | _ =>
      let r := recognizeLangs f rest
      (r.1, l :: r.2)

/-- Embedding of the VoiceCommand dataclass of
src/core/audio_manager_optimized.py (lines 74-82). -/
structure VoiceCommand where
  text : String
  confidence : ℚ
  timestamp : ℚ
  language : String
  isWakeWord : Bool
  wakeWordMatched : WakeWord.WakeMatch
  deriving DecidableEq

/-- How one listen_once call ends: returning None, returning a command,
or letting an exception escape. -/
inductive LOutcome where
  | noneRet : LOutcome
  | command (c : VoiceCommand) : LOutcome
  | raised (e : String) : LOutcome
  deriving DecidableEq

/-- AudioConfig.WAKE_WORDS (lines 67-71), already lowercase. -/
def configWakeWords : List (List Char) :=
  ["salut gideon".toList, "bonjour gideon".toList, "hey gideon".toList,
   "salut jarvis".toList, "bonjour jarvis".toList, "hey jarvis".toList,
   "gideon".toList, "jarvis".toList, "ordinateur".toList,
   "assistant".toList]

/-- AudioConfig.WAKE_WORD_THRESHOLD (line 72). -/
def wakeThreshold : ℚ := mkRat 3 4

/-- Embedding of the failure handling block of listen_once (lines
529-538), entered after the outer exception handlers: the
stats[failures] increment raises KeyError when that key is missing and
the exception escapes the method; otherwise, with maxRetries or more
consecutive failures, the method sleeps 5 seconds, resets the counter and
returns None. -/
def failureTail (s : AMState) : AMState × LOutcome :=
  match statsIncr s.stats .failures with
  | .error e => (s, .raised e)
  | .ok st =>
    let s1 := { s with stats := st }
    if maxRetries ≤ s1.consecutiveFailures then
      ({ s1 with sleeps := s1.sleeps ++ [5], consecutiveFailures := 0 },
       .noneRet)
    else (s1, .noneRet)

/-- Success block of listen_once (lines 488-515): the failure counter is
reset and lastSuccessfulRecognition set; the success statistics update
then reads stats[avg_response_time], raising KeyError into the generic
handler when that key is missing, which increments the failure counter
and enters the failure tail.  When the average update succeeds the wake
word detector is consulted (an absent wake_word_detector attribute would
likewise raise into the handler) and a VoiceCommand is returned. -/
def listen_success (s2 : AMState) (env : Env) (t : String) :
    AMState × LOutcome :=
  let s3 := { s2 with lastSuccessfulRecognition := some env.now,
                      consecutiveFailures := 0 }
  match statsIncr s3.stats .successful_recognitions with
  | .error _ =>
    failureTail { s3 with consecutiveFailures := s3.consecutiveFailures + 1 }
  | .ok st1 =>
    let s4 := { s3 with stats := st1 }
    match statsFind s4.stats .successful_recognitions,
          statsFind s4.stats .avg_response_time with
    | some (.num total), some (.num avg) =>
      let s5 := { s4 with
                  stats := statsSet s4.stats .avg_response_time
                    (.num ((avg * (total - 1) + env.responseTime) / total)) }
      if s5.hasWakeDetector then
        let d := WakeWord.detect_wake_word configWakeWords wakeThreshold
                   t.toList
        match (if d.1 then statsIncr s5.stats .wake_words_detected
               else .ok s5.stats) with
        | .error _ =>
          failureTail
            { s5 with consecutiveFailures := s5.consecutiveFailures + 1 }
        | .ok st2 =>
          ({ s5 with stats := st2 },
           .command
             { text := t, confidence := 1, timestamp := env.now,
               language := "fr-FR", isWakeWord := d.1,
               wakeWordMatched := d.2 })
      else
        failureTail
          { s5 with consecutiveFailures := s5.consecutiveFailures + 1 }
    | _, _ =>
      failureTail
        { s4 with consecutiveFailures := s4.consecutiveFailures + 1 }

/-- Capture and recognition dispatch of listen_once (lines 466-527):
silence returns None with nothing else changed; capture errors reach the
outer handlers, which increment the failure counter and run the failure
tail; captured audio is recognized against the language list, returning
None when no language produced a transcript or the transcript is empty,
and entering the success block otherwise. -/
def listen_capture (s2 : AMState) (env : Env) : AMState × LOutcome :=
  match env.capture with
  | .timeout => (s2, .noneRet)
  | .serviceError =>
    failureTail { s2 with consecutiveFailures := s2.consecutiveFailures + 1 }
  | .otherError =>
    failureTail { s2 with consecutiveFailures := s2.consecutiveFailures + 1 }
  | .audio f =>
    match (recognizeLangs f configLangs).1 with
    | none => (s2, .noneRet)
    | some t => if t = "" then (s2, .noneRet) else listen_success s2 env t

/-- Conditional recalibration at the top of the try block of listen_once
(lines 462-464): auto-calibrate when _should_recalibrate says so. -/
def preCapture (s1 : AMState) (env : Env) : AMState :=
  if shouldRecalibrate s1 env.now then
    (auto_calibrate s1 env.calibSample env.now).1
  else s1

/-- Embedding of EnhancedAudioManager.listen_once (lines 453-538),
assembled from the stages above in source order: the guard on recognizer
and microphone, the total_listens increment that precedes the try block
(raising KeyError when its key were missing), the conditional
recalibration, then capture, recognition and the success block.
Exceptions escaping the method are returned as a raised outcome, with the
mutations made before the raise kept, as Python keeps them. -/
def listen_once (s : AMState) (env : Env) : AMState × LOutcome :=
  if !(s.hasRecognizer && s.hasMicrophone) then (s, .noneRet)
  else
    match statsIncr s.stats .total_listens with
    | .error e => (s, .raised e)
    | .ok st0 => listen_capture (preCapture { s with stats := st0 } env) env

/-- How one start_continuous_listening call ends. -/
inductive SclOutcome where
  | unavailable : SclOutcome
  | raisedAttr (e : String) : SclOutcome
  | alreadyListening : SclOutcome
  | started : SclOutcome
  deriving DecidableEq

/-- Embedding of start_continuous_listening (lines 540-588): without
recognizer or microphone it warns and returns; otherwise it reads
self.is_listening, which raises AttributeError when the attribute was
never assigned; when present and set it warns and returns, and when
present and clear it sets the flag and starts the listening thread. -/
def start_continuous_listening (s : AMState) : AMState × SclOutcome :=
  if !(s.hasRecognizer && s.hasMicrophone) then (s, .unavailable)
  else
    match s.isListeningAttr with
    | none => (s, .raisedAttr "AttributeError: is_listening")
    | some true => (s, .alreadyListening)
    | some false => ({ s with isListeningAttr := some true }, .started)

/-- Embedding of the retry-delay computation of _intelligent_listen_loop
(lines 572-578), run after listen_once returns None with n the current
consecutive-failure count: the base delay is RETRY_DELAY, multiplied by
(1 + n * 0.3) when n is positive, and the sleep is capped at 3 seconds. -/
def loopDelay (n : Nat) : ℚ :=
  let d := retryDelay
  let d2 := if 0 < n then d * (1 + (n : ℚ) * mkRat 3 10) else d
  min d2 3

/-- State of the manager right after a successful __init__ with speech
recognition, microphone and TTS available: the stats dictionary is
initStats, no wake-word detector, voice queue or listening flags exist,
and the failure counter is zero.  The energy threshold and calibration
timestamp left by the initial auto-calibration attempt are parameters. -/
def mkInitState (th lc : ℚ) : AMState :=
  { hasRecognizer := true, hasMicrophone := true, hasWakeDetector := false,
    isListeningAttr := none, energyThreshold := th, lastCalibration := lc,
    consecutiveFailures := 0, stats := initStats,
    lastSuccessfulRecognition := none, sleeps := [] }

lemma statsFind_set_self (st : Stats) (k : StatKey) (v : StatVal) :
    statsFind (statsSet st k v) k = some v := by
  induction st with
  | nil => simp [statsSet, statsFind, List.find?]
  | cons p t ih =>
    by_cases hp : p.1 = k
    · simp [statsSet, hp, statsFind, List.find?]
    · simpa [statsSet, hp, statsFind, List.find?] using ih

lemma statsFind_set_ne {k k2 : StatKey} (st : Stats) (v : StatVal)
    (h : k2 ≠ k) : statsFind (statsSet st k v) k2 = statsFind st k2 := by
  have h2 : ¬(k = k2) := fun hh => h hh.symm
  induction st with
  | nil => simp [statsSet, statsFind, List.find?, h2]
  | cons p t ih =>
    by_cases hp : p.1 = k
    · simp [statsSet, hp, statsFind, List.find?, h2]
    · by_cases hpk2 : p.1 = k2
      · simp [statsSet, hp, statsFind, List.find?, hpk2, h]
      · simpa [statsSet, hp, statsFind, List.find?, hpk2] using ih

lemma statsIncr_ok {st st2 : Stats} {k : StatKey}
    (h : statsIncr st k = .ok st2) :
    ∃ q, statsFind st k = some (.num q) ∧ st2 = statsSet st k (.num (q + 1)) := by
  unfold statsIncr at h
  rcases hf : statsFind st k with _ | v
  · rw [hf] at h; simp at h
  · cases v with
    | num q =>
      rw [hf] at h
      simp only [Except.ok.injEq] at h
      exact ⟨q, rfl, h.symm⟩
    | txt s => rw [hf] at h; simp at h

lemma auto_calibrate_cf (s : AMState) (smp : CalibSample) (now : ℚ) :
    ((auto_calibrate s smp now).1).consecutiveFailures
      = s.consecutiveFailures := by
  unfold auto_calibrate
  split
  · rfl
  · cases smp with
    | err => rfl
    | value e =>
      rcases hi : statsIncr s.stats .calibrations with e2 | st <;> simp [hi]

lemma auto_calibrate_stats_key (s : AMState) (smp : CalibSample) (now : ℚ)
    {k : StatKey} (hk : k ≠ .calibrations) :
    statsFind ((auto_calibrate s smp now).1).stats k = statsFind s.stats k := by
  unfold auto_calibrate
  split
  · rfl
  · cases smp with
    | err => rfl
    | value e =>
      rcases hi : statsIncr s.stats .calibrations with e2 | st
      · simp [hi]
      · simp only [hi]
        obtain ⟨q, _, hst⟩ := statsIncr_ok hi
        subst hst
        exact statsFind_set_ne _ _ hk

lemma validateThreshold_bounds (e : ℚ) :
    100 ≤ validateThreshold e ∧ validateThreshold e ≤ 1000 := by
  unfold validateThreshold
  by_cases h1 : e < 100
  · simp only [h1, if_true]
    norm_num
  · by_cases h2 : e > 1000
    · simp only [h1, if_false, h2, if_true]
      norm_num
    · simp only [h1, if_false, h2]
      exact ⟨not_lt.mp h1, not_lt.mp h2⟩

lemma auto_calibrate_threshold (s : AMState) (e now : ℚ)
    (hr : s.hasRecognizer = true) (hm : s.hasMicrophone = true) :
    ((auto_calibrate s (.value e) now).1).energyThreshold
      = validateThreshold e := by
  unfold auto_calibrate
  simp only [hr, hm, Bool.and_self, Bool.not_true, Bool.false_eq_true,
    if_false]
  rcases hi : statsIncr s.stats .calibrations with e2 | st <;> simp [hi]

lemma auto_calibrate_fields (s : AMState) (smp : CalibSample) (now : ℚ) :
    ((auto_calibrate s smp now).1).hasRecognizer = s.hasRecognizer
      ∧ ((auto_calibrate s smp now).1).hasMicrophone = s.hasMicrophone
      ∧ ((auto_calibrate s smp now).1).hasWakeDetector = s.hasWakeDetector
      ∧ ((auto_calibrate s smp now).1).isListeningAttr = s.isListeningAttr
      ∧ ((auto_calibrate s smp now).1).sleeps = s.sleeps
      ∧ ((auto_calibrate s smp now).1).lastSuccessfulRecognition
          = s.lastSuccessfulRecognition := by
  unfold auto_calibrate
  split
  · simp
  · cases smp with
    | err => simp
    | value e =>
      rcases hi : statsIncr s.stats .calibrations with e2 | st <;> simp [hi]

lemma recognizeLangs_none (f : String → SttResult) (langs : List String)
    (h : ∀ l ∈ langs, f l = .unknownValue ∨ f l = .requestError) :
    (recognizeLangs f langs).1 = none := by
  induction langs with
  | nil => rfl
  | cons a rest ih =>
    rcases h a (by simp) with h1 | h1 <;>
      simp [recognizeLangs, h1, ih fun x hx => h x (by simp [hx])]

lemma recognizeLangs_append (f : String → SttResult) (pre post : List String)
    (l : String) (t : String)
    (hpre : ∀ x ∈ pre, f x = .unknownValue ∨ f x = .requestError)
    (hl : f l = .ok t) :
    recognizeLangs f (pre ++ l :: post) = (some t, pre ++ [l]) := by
  induction pre with
  | nil => simp [recognizeLangs, hl]
  | cons a rest ih =>
    rcases hpre a (by simp) with h1 | h1 <;>
      simp [recognizeLangs, h1, ih fun x hx => hpre x (by simp [hx])]

lemma preCapture_cf (s1 : AMState) (env : Env) :
    (preCapture s1 env).consecutiveFailures = s1.consecutiveFailures := by
  unfold preCapture
  split
  · exact auto_calibrate_cf _ _ _
  · rfl

lemma preCapture_stats_key (s1 : AMState) (env : Env) {k : StatKey}
    (hk : k ≠ .calibrations) :
    statsFind (preCapture s1 env).stats k = statsFind s1.stats k := by
  unfold preCapture
  split
  · exact auto_calibrate_stats_key _ _ _ hk
  · rfl

lemma failureTail_missing (s : AMState)
    (h : statsFind s.stats .failures = none) :
    failureTail s = (s, .raised "KeyError: failures") := by
  unfold failureTail statsIncr
  rw [h]
  rfl

/-- State of the manager right after the total_listens increment at the
top of listen_once, when that entry held q. -/
def afterTotalListens (s : AMState) (q : ℚ) : AMState :=
  { s with stats := statsSet s.stats .total_listens (.num (q + 1)) }

lemma listen_once_ok (s : AMState) (env : Env) (q : ℚ)
    (hr : s.hasRecognizer = true) (hm : s.hasMicrophone = true)
    (htl : statsFind s.stats .total_listens = some (.num q)) :
    listen_once s env
      = listen_capture (preCapture (afterTotalListens s q) env) env := by
  have hincr : statsIncr s.stats .total_listens
      = .ok (statsSet s.stats .total_listens (.num (q + 1))) := by
    unfold statsIncr
    rw [htl]
  unfold listen_once afterTotalListens
  simp only [hr, hm, Bool.and_self, Bool.not_true, Bool.false_eq_true,
    if_false, hincr]

lemma listen_success_raises (s2 : AMState) (env : Env) (t : String)
    (havg : statsFind s2.stats .avg_response_time = none)
    (hfail : statsFind s2.stats .failures = none) :
    (listen_success s2 env t).2 = .raised "KeyError: failures" := by
  unfold listen_success
  rcases hi : statsIncr s2.stats .successful_recognitions with e | st1
  · simp only [hi]
    rw [failureTail_missing]
    exact hfail
  · simp only [hi]
    obtain ⟨q2, hq2, hst1⟩ := statsIncr_ok hi
    subst hst1
    rw [statsFind_set_self, statsFind_set_ne _ _ (by decide), havg]
    rw [failureTail_missing]
    rw [statsFind_set_ne _ _ (by decide)]
    exact hfail

lemma listen_capture_no_command (s2 : AMState) (env : Env)
    (havg : statsFind s2.stats .avg_response_time = none)
    (hfail : statsFind s2.stats .failures = none) :
    ∀ c, (listen_capture s2 env).2 ≠ .command c := by
  intro c
  unfold listen_capture
  cases hc : env.capture with
  | timeout => simp
  | serviceError =>
    dsimp only
    rw [failureTail_missing]
    all_goals first | exact hfail | simp
  | otherError =>
    dsimp only
    rw [failureTail_missing]
    all_goals first | exact hfail | simp
  | audio f =>
    dsimp only
    cases hrec : (recognizeLangs f configLangs).1 with
    | none => simp
    | some t =>
      dsimp only
      by_cases ht : t = ""
      · simp [ht]
      · rw [if_neg ht, listen_success_raises s2 env t havg hfail]
        simp

/-- Environment of a listen_once call that hears only silence until the
timeout. -/
def silenceEnv : Env :=
  { capture := .timeout, calibSample := .err, now := 10, responseTime := 1 }

/-- Environment of a listen_once call that captures audio no language can
transcribe. -/
def notUnderstoodEnv : Env :=
  { capture := .audio fun _ => .unknownValue, calibSample := .err,
    now := 10, responseTime := 1 }

/-- Environment of a listen_once call whose first language transcribes the
audio successfully. -/
def successEnv : Env :=
  { capture := .audio fun _ => .ok "bonjour", calibSample := .err,
    now := 10, responseTime := 2 }

/-- Environment of a listen_once call whose capture raises an unexpected
error. -/
def captureErrorEnv : Env :=
  { capture := .otherError, calibSample := .err, now := 10,
    responseTime := 1 }

/-- A freshly initialized manager. -/
def freshState : AMState := mkInitState 250 0

/-- A manager that has already accumulated two consecutive failures, one
short of MAX_RETRIES. -/
def twoFailuresState : AMState := { freshState with consecutiveFailures := 2 }

end AudioMgr

/-- C1 counterexample: a non-priority speak call made while the controller
is already speaking is not skipped; it starts a new playback and reports
no skipped outcome, contradicting the claimed no-op behaviour. -/
theorem speak_busy_starts_playback_counterexample :
    SpeakCtl.speak true "second reply" false
        = [SpeakCtl.TtsAct.startPlayback "second reply"]
      ∧ SpeakCtl.TtsAct.skipReport ∉ SpeakCtl.speak true "second reply" false := by
  decide

/-- C1 amended: every speak call starts a new playback for its text, no
call ever reports a skipped outcome, the current utterance is stopped
exactly when priority is set while the controller is speaking, and that
stop precedes the new playback.  In particular a non-priority call while
speaking starts an overlapping playback instead of being skipped. -/
theorem speak_no_skip_amended (isSpeaking priority : Bool) (text : String) :
    SpeakCtl.TtsAct.startPlayback text ∈ SpeakCtl.speak isSpeaking text priority
      ∧ SpeakCtl.TtsAct.skipReport ∉ SpeakCtl.speak isSpeaking text priority
      ∧ (SpeakCtl.TtsAct.stopCurrent ∈ SpeakCtl.speak isSpeaking text priority
           ↔ priority = true ∧ isSpeaking = true)
      ∧ (SpeakCtl.speak isSpeaking text priority).getLast?
          = some (SpeakCtl.TtsAct.startPlayback text) := by
  cases isSpeaking <;> cases priority <;> simp [SpeakCtl.speak]

/-- C10: pushing three commands into an empty queue and popping three
times yields them in push order with nothing lost, and a pop on the empty
queue reports an empty result after its timeout. -/
theorem queue_fifo_order (c1 c2 c3 : CmdQueue.VoiceCommand) :
    CmdQueue.put (CmdQueue.put (CmdQueue.put [] c1) c2) c3 = [c1, c2, c3]
      ∧ CmdQueue.get_next_voice_command [c1, c2, c3] = (some c1, [c2, c3])
      ∧ CmdQueue.get_next_voice_command [c2, c3] = (some c2, [c3])
      ∧ CmdQueue.get_next_voice_command [c3] = (some c3, [])
      ∧ CmdQueue.get_next_voice_command ([] : List CmdQueue.VoiceCommand)
          = (none, []) :=
  ⟨rfl, rfl, rfl, rfl, rfl⟩

/-- C4: whenever calibration fails because the microphone stack is absent
or the ambient sampling raises, auto_calibrate_microphone returns false
and neither the energy threshold nor the last-calibration timestamp
changes. -/
theorem calibrate_failure_preserves_state (s : AudioMgr.AMState)
    (sample : AudioMgr.CalibSample) (now : ℚ)
    (h : s.hasRecognizer = false ∨ s.hasMicrophone = false
           ∨ sample = .err) :
    (AudioMgr.auto_calibrate s sample now).2 = false
      ∧ ((AudioMgr.auto_calibrate s sample now).1).energyThreshold
          = s.energyThreshold
      ∧ ((AudioMgr.auto_calibrate s sample now).1).lastCalibration
          = s.lastCalibration := by
  have hfull : AudioMgr.auto_calibrate s sample now = (s, false) := by
    unfold AudioMgr.auto_calibrate
    rcases h with h | h | h
    · simp [h]
    · simp [h]
    · subst h
      cases hb : (s.hasRecognizer && s.hasMicrophone) <;> simp
  rw [hfull]
  exact ⟨rfl, rfl, rfl⟩

/-- C4 witness: a concrete failing calibration, sampling error on the
fresh manager, reports false and retains threshold 250 and timestamp 0. -/
theorem calibrate_failure_preserves_state_witness :
    (AudioMgr.auto_calibrate AudioMgr.freshState .err 5).2 = false
      ∧ ((AudioMgr.auto_calibrate AudioMgr.freshState .err 5).1).energyThreshold
          = AudioMgr.freshState.energyThreshold
      ∧ ((AudioMgr.auto_calibrate AudioMgr.freshState .err 5).1).lastCalibration
          = AudioMgr.freshState.lastCalibration :=
  calibrate_failure_preserves_state AudioMgr.freshState .err 5
    (Or.inr (Or.inr rfl))

/-- C6: for every sampled ambient energy value, the energy threshold left
by the validation step of auto_calibrate_microphone lies within the
implementation bounds 100 and 1000; out-of-range derived values are
replaced by the in-range constants 200 and 800. -/
theorem calibrate_threshold_in_bounds (s : AudioMgr.AMState) (e now : ℚ)
    (hr : s.hasRecognizer = true) (hm : s.hasMicrophone = true) :
    100 ≤ ((AudioMgr.auto_calibrate s (.value e) now).1).energyThreshold
      ∧ ((AudioMgr.auto_calibrate s (.value e) now).1).energyThreshold
          ≤ 1000 := by
  rw [AudioMgr.auto_calibrate_threshold s e now hr hm]
  exact AudioMgr.validateThreshold_bounds e

/-- C6 witness: a concrete calibration sampling the out-of-range value
5000 leaves a threshold within bounds. -/
theorem calibrate_threshold_in_bounds_witness :
    100 ≤ ((AudioMgr.auto_calibrate AudioMgr.freshState (.value 5000) 1).1).energyThreshold
      ∧ ((AudioMgr.auto_calibrate AudioMgr.freshState (.value 5000) 1).1).energyThreshold
          ≤ 1000 :=
  calibrate_threshold_in_bounds AudioMgr.freshState 5000 1 rfl rfl

/-- C7: the backoff delay computed by the listening loop does equal
min(retryDelay * (1 + n * 0.3), 3.0) for every consecutive-failure count
n, but the claimed extended sleep and counter reset at n = maxRetries
never execute: on the concrete run in which the failure counter reaches
MAX_RETRIES = 3, listen_once raises KeyError on the missing stats entry
for failures before reaching the extended-sleep block, leaving the
counter at 3 and sleeping nothing. -/
theorem backoff_delay_formula_reset_unreachable :
    (∀ n : Nat, AudioMgr.loopDelay n
        = min (AudioMgr.retryDelay * (1 + (n : ℚ) * mkRat 3 10)) 3)
      ∧ (AudioMgr.listen_once AudioMgr.twoFailuresState
            AudioMgr.captureErrorEnv).2 = .raised "KeyError: failures"
      ∧ (AudioMgr.listen_once AudioMgr.twoFailuresState
            AudioMgr.captureErrorEnv).1.consecutiveFailures
          = AudioMgr.maxRetries
      ∧ (AudioMgr.listen_once AudioMgr.twoFailuresState
            AudioMgr.captureErrorEnv).1.sleeps = [] := by
  refine ⟨?_, by decide, by decide, by decide⟩
  intro n
  cases n with
  | zero => norm_num [AudioMgr.loopDelay, AudioMgr.retryDelay]
  | succ m => norm_num [AudioMgr.loopDelay, AudioMgr.retryDelay]

/-- C9: on the first successful recognition of the freshly initialized
manager, the running-average update reads the missing stats entry for
avg_response_time and raises, the method ends with an escaped KeyError,
and no average is ever stored, against the claim that the stored average
equals the mean of the response times. -/
theorem avg_update_raises_keyerror :
    AudioMgr.statsFind AudioMgr.freshState.stats .avg_response_time = none
      ∧ (AudioMgr.listen_once AudioMgr.freshState AudioMgr.successEnv).2
          = .raised "KeyError: failures"
      ∧ AudioMgr.statsFind
          (AudioMgr.listen_once AudioMgr.freshState AudioMgr.successEnv).1.stats
          .avg_response_time = none := by
  refine ⟨by decide, by decide, by decide⟩

/-- Speech-to-text behaviour with French unavailable and English
succeeding, used to witness the language-order property. -/
def c8stt : String → AudioMgr.SttResult := fun lang =>
  if lang = "fr-FR" then .unknownValue else .ok "allume la lumiere"

/-- The environment of the first successful recognition of a fresh
manager, hearing the wake phrase. -/
def c5Env : AudioMgr.Env :=
  { capture := .audio fun _ => .ok "salut gideon", calibSample := .err,
    now := 3, responseTime := 1 }

/-- C3 counterexample: a listen_once call that captures audio no tried
language can transcribe, the SpeechNotUnderstood outcome, returns None
and leaves the consecutive-failure counter unchanged at 0, where the
claim requires an increment to 1. -/
theorem not_understood_no_increment_counterexample :
    (AudioMgr.listen_once AudioMgr.freshState AudioMgr.notUnderstoodEnv).2
        = .noneRet
      ∧ (AudioMgr.listen_once AudioMgr.freshState
          AudioMgr.notUnderstoodEnv).1.consecutiveFailures = 0 := by
  refine ⟨by decide, by decide⟩

/-- C3 amended: NoSpeechDetected leaves the consecutive-failure counter
unchanged, and SpeechNotUnderstood, audio captured but no transcript for
any tried language, also leaves it unchanged because listen_once returns
None before the failure-handling block; only errors raised outside the
per-language loop and caught by the outer handlers increment the counter
by one, after which the stats failure update raises KeyError out of the
method. -/
theorem failure_counter_amended (s : AudioMgr.AMState)
    (cs : AudioMgr.CalibSample) (now rt q : ℚ)
    (hr : s.hasRecognizer = true) (hm : s.hasMicrophone = true)
    (htl : AudioMgr.statsFind s.stats .total_listens = some (.num q))
    (hfail : AudioMgr.statsFind s.stats .failures = none) :
    ((AudioMgr.listen_once s ⟨.timeout, cs, now, rt⟩).2 = .noneRet
       ∧ (AudioMgr.listen_once s ⟨.timeout, cs, now, rt⟩).1.consecutiveFailures
           = s.consecutiveFailures)
      ∧ (∀ f : String → AudioMgr.SttResult,
           (∀ l ∈ AudioMgr.configLangs,
               f l = .unknownValue ∨ f l = .requestError) →
           (AudioMgr.listen_once s ⟨.audio f, cs, now, rt⟩).2 = .noneRet
             ∧ (AudioMgr.listen_once s
                 ⟨.audio f, cs, now, rt⟩).1.consecutiveFailures
                 = s.consecutiveFailures)
      ∧ (∀ cap, (cap = AudioMgr.Capture.serviceError
             ∨ cap = AudioMgr.Capture.otherError) →
           (AudioMgr.listen_once s ⟨cap, cs, now, rt⟩).2
               = .raised "KeyError: failures"
             ∧ (AudioMgr.listen_once s ⟨cap, cs, now, rt⟩).1.consecutiveFailures
                 = s.consecutiveFailures + 1) := by
  have hcfPre : ∀ cap : AudioMgr.Capture,
      (AudioMgr.preCapture (AudioMgr.afterTotalListens s q)
        ⟨cap, cs, now, rt⟩).consecutiveFailures = s.consecutiveFailures :=
    fun cap => AudioMgr.preCapture_cf _ _
  have hflPre : ∀ cap : AudioMgr.Capture,
      AudioMgr.statsFind
        (AudioMgr.preCapture (AudioMgr.afterTotalListens s q)
          ⟨cap, cs, now, rt⟩).stats .failures = none := by
    intro cap
    rw [AudioMgr.preCapture_stats_key _ _ (by decide)]
    show AudioMgr.statsFind
      (AudioMgr.statsSet s.stats AudioMgr.StatKey.total_listens
        (AudioMgr.StatVal.num (q + 1))) AudioMgr.StatKey.failures = none
    rw [AudioMgr.statsFind_set_ne _ _ (by decide)]
    exact hfail
  refine ⟨⟨?_, ?_⟩, ?_, ?_⟩
  · rw [AudioMgr.listen_once_ok s _ q hr hm htl]
    rfl
  · rw [AudioMgr.listen_once_ok s _ q hr hm htl]
    exact hcfPre .timeout
  · intro f hfl
    have hrec := AudioMgr.recognizeLangs_none f AudioMgr.configLangs hfl
    constructor
    · rw [AudioMgr.listen_once_ok s _ q hr hm htl]
      unfold AudioMgr.listen_capture
      dsimp only
      rw [hrec]
    · rw [AudioMgr.listen_once_ok s _ q hr hm htl]
      unfold AudioMgr.listen_capture
      dsimp only
      rw [hrec]
      exact hcfPre (.audio f)
  · intro cap hcap
    rcases hcap with h | h <;> subst h <;> constructor <;>
      · rw [AudioMgr.listen_once_ok s _ q hr hm htl]
        unfold AudioMgr.listen_capture
        dsimp only
        rw [AudioMgr.failureTail_missing]
        all_goals
          first
            | exact hflPre _
            | exact congrArg (fun n => n + 1) (hcfPre _)

/-- C3 amended witness: the amended statement instantiated on the fresh
manager, whose stats dictionary holds total_listens 0 and no failures
key. -/
theorem failure_counter_amended_witness :
    ((AudioMgr.listen_once AudioMgr.freshState ⟨.timeout, .err, 10, 1⟩).2
         = .noneRet
       ∧ (AudioMgr.listen_once AudioMgr.freshState
           ⟨.timeout, .err, 10, 1⟩).1.consecutiveFailures
           = AudioMgr.freshState.consecutiveFailures)
      ∧ (∀ f : String → AudioMgr.SttResult,
           (∀ l ∈ AudioMgr.configLangs,
               f l = .unknownValue ∨ f l = .requestError) →
           (AudioMgr.listen_once AudioMgr.freshState
               ⟨.audio f, .err, 10, 1⟩).2 = .noneRet
             ∧ (AudioMgr.listen_once AudioMgr.freshState
                 ⟨.audio f, .err, 10, 1⟩).1.consecutiveFailures
                 = AudioMgr.freshState.consecutiveFailures)
      ∧ (∀ cap, (cap = AudioMgr.Capture.serviceError
             ∨ cap = AudioMgr.Capture.otherError) →
           (AudioMgr.listen_once AudioMgr.freshState ⟨cap, .err, 10, 1⟩).2
               = .raised "KeyError: failures"
             ∧ (AudioMgr.listen_once AudioMgr.freshState
                 ⟨cap, .err, 10, 1⟩).1.consecutiveFailures
                 = AudioMgr.freshState.consecutiveFailures + 1) :=
  failure_counter_amended AudioMgr.freshState .err 10 1 0 rfl rfl
    (by decide) (by decide)

/-- C5: the constructor of EnhancedAudioManager never assigns the
attributes wake_word_detector, voice_queue, is_listening or is_speaking
and omits the stats keys avg_response_time, failures and calibrations;
consequently listen_once never returns a VoiceCommand from the
as-initialized manager, every call that obtains a non-empty transcript
ends with an escaped KeyError, and start_continuous_listening raises
AttributeError on reading is_listening. -/
theorem init_missing_attrs_never_commands :
    ("wake_word_detector" ∉ AudioMgr.initAssignedAttrs
       ∧ "voice_queue" ∉ AudioMgr.initAssignedAttrs
       ∧ "is_listening" ∉ AudioMgr.initAssignedAttrs
       ∧ "is_speaking" ∉ AudioMgr.initAssignedAttrs)
      ∧ (AudioMgr.statsFind AudioMgr.initStats .avg_response_time = none
       ∧ AudioMgr.statsFind AudioMgr.initStats .failures = none
       ∧ AudioMgr.statsFind AudioMgr.initStats .calibrations = none)
      ∧ (∀ (th lc : ℚ) (env : AudioMgr.Env) (c : AudioMgr.VoiceCommand),
           (AudioMgr.listen_once (AudioMgr.mkInitState th lc) env).2
             ≠ .command c)
      ∧ (∀ (th lc : ℚ) (env : AudioMgr.Env)
           (f : String → AudioMgr.SttResult) (t : String),
           env.capture = .audio f →
           (AudioMgr.recognizeLangs f AudioMgr.configLangs).1 = some t →
           t ≠ "" →
           (AudioMgr.listen_once (AudioMgr.mkInitState th lc) env).2
             = .raised "KeyError: failures")
      ∧ (∀ th lc : ℚ,
           (AudioMgr.start_continuous_listening (AudioMgr.mkInitState th lc)).2
             = .raisedAttr "AttributeError: is_listening") := by
  refine ⟨by decide, by decide, ?_, ?_, ?_⟩
  · intro th lc env c
    have htl : AudioMgr.statsFind (AudioMgr.mkInitState th lc).stats
        .total_listens = some (.num 0) := rfl
    rw [AudioMgr.listen_once_ok _ _ 0 rfl rfl htl]
    apply AudioMgr.listen_capture_no_command
    · rw [AudioMgr.preCapture_stats_key _ _ (by decide)]
      show AudioMgr.statsFind
        (AudioMgr.statsSet AudioMgr.initStats AudioMgr.StatKey.total_listens
          (AudioMgr.StatVal.num (0 + 1))) AudioMgr.StatKey.avg_response_time
          = none
      rw [AudioMgr.statsFind_set_ne _ _ (by decide)]
      rfl
    · rw [AudioMgr.preCapture_stats_key _ _ (by decide)]
      show AudioMgr.statsFind
        (AudioMgr.statsSet AudioMgr.initStats AudioMgr.StatKey.total_listens
          (AudioMgr.StatVal.num (0 + 1))) AudioMgr.StatKey.failures = none
      rw [AudioMgr.statsFind_set_ne _ _ (by decide)]
      rfl
  · intro th lc env f t hcap hrec ht
    have htl : AudioMgr.statsFind (AudioMgr.mkInitState th lc).stats
        .total_listens = some (.num 0) := rfl
    rw [AudioMgr.listen_once_ok _ _ 0 rfl rfl htl]
    unfold AudioMgr.listen_capture
    rw [hcap]
    dsimp only
    rw [hrec]
    dsimp only
    rw [if_neg ht]
    apply AudioMgr.listen_success_raises
    · rw [AudioMgr.preCapture_stats_key _ _ (by decide)]
      show AudioMgr.statsFind
        (AudioMgr.statsSet AudioMgr.initStats AudioMgr.StatKey.total_listens
          (AudioMgr.StatVal.num (0 + 1))) AudioMgr.StatKey.avg_response_time
          = none
      rw [AudioMgr.statsFind_set_ne _ _ (by decide)]
      rfl
    · rw [AudioMgr.preCapture_stats_key _ _ (by decide)]
      show AudioMgr.statsFind
        (AudioMgr.statsSet AudioMgr.initStats AudioMgr.StatKey.total_listens
          (AudioMgr.StatVal.num (0 + 1))) AudioMgr.StatKey.failures = none
      rw [AudioMgr.statsFind_set_ne _ _ (by decide)]
      rfl
  · intro th lc
    rfl

/-- C5 witness: on the fresh manager, the first call that transcribes the
wake phrase ends with the escaped KeyError instead of a command. -/
theorem init_missing_attrs_never_commands_witness :
    (AudioMgr.listen_once (AudioMgr.mkInitState 250 0) c5Env).2
      = .raised "KeyError: failures" :=
  init_missing_attrs_never_commands.2.2.2.1 250 0 c5Env
    (fun _ => AudioMgr.SttResult.ok "salut gideon") "salut gideon" rfl rfl
    (by decide)

/-- C8: recognition iterates the configured language list, the primary
language first and then the fallbacks in order; the first language whose
speech-to-text call yields a transcript wins: its transcript is returned,
exactly the languages up to and including it are consulted, and the
remaining languages are never consulted and nothing is merged. -/
theorem recognize_first_language_wins (f : String → AudioMgr.SttResult)
    (pre post : List String) (l t : String)
    (hsplit : AudioMgr.configLangs = pre ++ l :: post)
    (hpre : ∀ x ∈ pre, f x = .unknownValue ∨ f x = .requestError)
    (hl : f l = .ok t) :
    AudioMgr.recognizeLangs f AudioMgr.configLangs = (some t, pre ++ [l]) := by
  rw [hsplit]
  exact AudioMgr.recognizeLangs_append f pre post l t hpre hl

/-- C8 witness: with French failing and English succeeding, recognition
returns the English transcript after consulting exactly French then
English, never British English. -/
theorem recognize_first_language_wins_witness :
    AudioMgr.recognizeLangs c8stt AudioMgr.configLangs
      = (some "allume la lumiere", ["fr-FR", "en-US"]) :=
  recognize_first_language_wins c8stt ["fr-FR"] ["en-GB"] "en-US"
    "allume la lumiere" rfl
    (by
      intro x hx
      rw [List.mem_singleton] at hx
      subst hx
      left
      rfl)
    rfl

/-- C2 counterexample: on the fuzzy example transcript of the claim the
detector returns no match: the similarity ratio is computed between the
phrase and the entire transcript, which yields 2/5 here, below the 0.75
threshold, so the claimed match with similarity at least 0.75 does not
occur. -/
theorem wake_fuzzy_whole_transcript_counterexample :
    (WakeWord.detect_wake_word WakeWord.gideonWords (mkRat 3 4)
        WakeWord.fuzzyText).1 = false
      ∧ WakeWord.simRatio "gideon".toList (WakeWord.normalize WakeWord.fuzzyText)
          = mkRat 2 5 := by
  refine ⟨by decide, by decide⟩

/-- C2 amended: with phrase list gideon and threshold 0.75, detect on the
transcript hey gideo turn on lights returns no match, its whole-transcript
similarity being 2/5; detect on completely unrelated text returns no
match; and in general, whenever no exact substring match exists, the
fuzzy step matches exactly when the similarity ratio between the phrase
and the entire normalized transcript reaches the threshold. -/
theorem wake_fuzzy_amended (text : List Char)
    (hex : WakeWord.hasSub "gideon".toList (WakeWord.normalize text) = false) :
    ((WakeWord.detect_wake_word WakeWord.gideonWords (mkRat 3 4) text).1 = true
       ↔ mkRat 3 4 ≤ WakeWord.simRatio "gideon".toList (WakeWord.normalize text))
      ∧ (WakeWord.detect_wake_word WakeWord.gideonWords (mkRat 3 4)
          WakeWord.fuzzyText).1 = false
      ∧ WakeWord.simRatio "gideon".toList (WakeWord.normalize WakeWord.fuzzyText)
          = mkRat 2 5
      ∧ (WakeWord.detect_wake_word WakeWord.gideonWords (mkRat 3 4)
          WakeWord.unrelatedText).1 = false := by
  refine ⟨?_, by decide, by decide, by decide⟩
  by_cases hempty : text = []
  · subst hempty; decide
  · exact WakeWord.detect_single_fuzzy "gideon".toList (by decide) (mkRat 3 4)
      (by decide) text hempty hex

/-- C2 amended witness: the amended statement instantiated at the fuzzy
example transcript, whose normalized form does not contain gideon. -/
theorem wake_fuzzy_amended_witness :
    (((WakeWord.detect_wake_word WakeWord.gideonWords (mkRat 3 4)
          WakeWord.fuzzyText).1 = true
       ↔ mkRat 3 4 ≤ WakeWord.simRatio "gideon".toList
            (WakeWord.normalize WakeWord.fuzzyText))
      ∧ (WakeWord.detect_wake_word WakeWord.gideonWords (mkRat 3 4)
          WakeWord.fuzzyText).1 = false
      ∧ WakeWord.simRatio "gideon".toList (WakeWord.normalize WakeWord.fuzzyText)
          = mkRat 2 5
      ∧ (WakeWord.detect_wake_word WakeWord.gideonWords (mkRat 3 4)
          WakeWord.unrelatedText).1 = false) :=
  wake_fuzzy_amended WakeWord.fuzzyText (by decide)

